import Mathlib

/-!
Verification development for the sc2bankrecover repository.

The Go sources are shallowly embedded:

* `bank.go` — bank reconstruction (`NewBanksFromReplay`, `NewBank`,
  `AddGameEvent`) and bank serialization (`WriteTo`).
* `repm` replay model (`newRep`, `NewFromFileEvts`, `Close`) — replay-session
  construction with fault containment; external decoders (mpq archive reads,
  s2prot decoding) are modelled as oracle results carried by an environment
  record, each of which may either return a value or raise a runtime fault
  (Go panic).
* tracker analytics (`angleToClock`, `calcSQ`, the stats accumulation and
  finalize step of `TrackerEvts.init`) — Go `float64` arithmetic is modelled
  over the real numbers; Go `int64` over `Int`.

Machine events (`s2prot.Event`) are records of the fields the bank and
tracker code actually reads: the event-type name, the loop (logical tick),
the originating user id, and the `name` / `type` / `data` / `signature`
fields.  `evt.Value("type") == nil` is modelled by an `Option Int` field;
`evt.Int("type")` of a missing field is `0` (s2prot returns the zero value).
-/

/-- Game event as consumed by the bank and tracker code: the fields read via
`EvtType.Name`, `Loop()`, `UserID()`, `Stringv("name")`, `Value("type")` /
`Int("type")`, `Stringv("data")` and `Array("signature")`. -/
structure Event where
  evtTypeName : String
  loop : Int
  userID : Nat
  name : String
  type : Option Int
  data : String
  signature : List Nat
deriving DecidableEq

/-- `EvtTypeBankFile = "BankFile"` from bank.go. -/
def EvtTypeBankFile : String := "BankFile"

/-- `EvtTypeBankSection = "BankSection"` from bank.go. -/
def EvtTypeBankSection : String := "BankSection"

/-- `EvtTypeBankKey = "BankKey"` from bank.go. -/
def EvtTypeBankKey : String := "BankKey"

/-- `EvtTypeBankValue = "BankValue"` from bank.go. -/
def EvtTypeBankValue : String := "BankValue"

/-- `EvtTypeBankSignature = "BankSignature"` from bank.go. -/
def EvtTypeBankSignature : String := "BankSignature"

/-- The `isBankEvent` closure of `NewBanksFromReplay`: the event's type name
is one of the five bank event names. -/
def isBankEvent (e : Event) : Bool :=
  [EvtTypeBankFile, EvtTypeBankSection, EvtTypeBankKey, EvtTypeBankValue,
    EvtTypeBankSignature].contains e.evtTypeName

/-- The `Bank` struct of bank.go; the owning player is kept as the player
index used to look it up (`r.Details.Players()[evt.UserID()]`). -/
structure Bank where
  name : String
  player : Nat
  events : List Event
deriving DecidableEq

/-- `NewBank` from bank.go: nil (`none`) unless the seeding event is a
BankFile event; otherwise a bank whose event list starts with that event. -/
def NewBank (e : Event) (player : Nat) : Option Bank :=
  if e.evtTypeName ≠ EvtTypeBankFile then none
  else some { name := e.name, player := player, events := [e] }

/-- `AddGameEvent` from bank.go: appends Section/Key/Value/Signature events,
returns an error (`some msg`) and leaves the bank unchanged otherwise. -/
def AddGameEvent (b : Bank) (e : Event) : Bank × Option String :=
  if [EvtTypeBankSection, EvtTypeBankKey, EvtTypeBankValue,
      EvtTypeBankSignature].contains e.evtTypeName then
    ({ b with events := b.events ++ [e] }, none)
  else
    (b, some "invalid bank event")

/-- Go map read `m[k]` (nil when the key is absent), for the per-player
`map[string]*Bank`. -/
def mapGet (m : List (String × Bank)) (k : String) : Option Bank :=
  (m.find? (fun p => p.1 == k)).map (fun p => p.2)

/-- Go map write `m[k] = v`: replaces the binding of `k` or adds one. -/
def mapPut (m : List (String × Bank)) (k : String) (v : Bank) :
    List (String × Bank) :=
  if (m.find? (fun p => p.1 == k)).isSome then
    m.map (fun p => if p.1 == k then (k, v) else p)
  else
    m ++ [(k, v)]

/-- The event loop of `NewBanksFromReplay`, threading the single
`bankNameCurr` variable.  `none` models a Go runtime panic
(`playersBanks[evt.UserID()]` with an out-of-range user id).  The loop breaks
at the first event with `Loop() > 0`. -/
def banksGo : List Event → String → List (List (String × Bank)) →
    Option (List (List (String × Bank)))
  | [], _, st => some st
  | e :: rest, nameCurr, st =>
    if e.loop > 0 then some st
    else if ¬ isBankEvent e then banksGo rest nameCurr st
    else if e.evtTypeName = EvtTypeBankFile then
      match st.get? e.userID with
      | none => none
      | some m =>
        match NewBank e e.userID with
        | some b => banksGo rest e.name (st.set e.userID (mapPut m e.name b))
        | none => banksGo rest e.name st
    else
      match st.get? e.userID with
      | none => none
      | some m =>
        match mapGet m nameCurr with
        | some b =>
          banksGo rest nameCurr
            (st.set e.userID (mapPut m nameCurr (AddGameEvent b e).1))
        | none => banksGo rest nameCurr st

/-- `NewBanksFromReplay` from bank.go: one empty bank map per player
(`len(r.Details.Players())` many), then the single pass over the game
events. -/
def NewBanksFromReplay (numPlayers : Nat) (gameEvts : List Event) :
    Option (List (List (String × Bank))) :=
  banksGo gameEvts "" (List.replicate numPlayers [])


/-!
## Bank serialization (`Bank.WriteTo` of bank.go)

The etree document built by `WriteTo` is modelled as a flat list of element
nodes in creation order; a node records its parent (as an index into the
list, `none` for a child of the `Bank` root), its tag and its attributes.
The mutable `eCurrSection` / `eCurrKey` element pointers of the Go loop
become indices into this list.  A Go runtime panic (nil `eCurrSection` /
`eCurrKey` dereference, or an out-of-range index into the value-kind name
table) is modelled as `none`.
-/

/-- One etree element created by `WriteTo`: parent node index (`none` for a
child of the document root), tag and attributes in creation order. -/
structure XNode where
  parent : Option Nat
  tag : String
  attrs : List (String × String)
deriving DecidableEq

/-- The serializer loop state: nodes created so far (indices are positions
in this list) and the `eCurrSection` / `eCurrKey` pointers. -/
structure WState where
  nodes : List XNode
  currSection : Option Nat
  currKey : Option Nat
deriving DecidableEq

/-- The literal value-kind name table of `WriteTo`, indexed by the numeric
type code 0–6. -/
def valueKindNames : List String :=
  ["fixed", "flag", "int", "string", "point", "unit", "text"]

/-- One uppercase hexadecimal digit. -/
def hexDigit (n : Nat) : Char :=
  if n < 10 then Char.ofNat (48 + n) else Char.ofNat (55 + (n - 10))

/-- `fmt.Fprintf(sb, "%02X", v)`: uppercase hexadecimal, at least two
digits, for the byte values of a bank signature. -/
def hexByte (n : Nat) : String :=
  if n < 256 then
    String.mk [hexDigit (n / 16), hexDigit (n % 16)]
  else
    String.mk [hexDigit (n / 4096 % 16), hexDigit (n / 256 % 16),
      hexDigit (n / 16 % 16), hexDigit (n % 16)]

/-- Hex encoding of a signature byte array, two uppercase digits per byte,
no separators. -/
def hexOfSignature (sig : List Nat) : String :=
  String.join (sig.map hexByte)

/-- The `EvtTypeBankValue` arm of the `WriteTo` switch (also reached by
fallthrough from a `BankKey` event with an inline `type` field): a type code
of 7 defers the value to the next event (`continue`); otherwise a `Value`
element is created under `eCurrKey` (nil dereference when no current key)
with a single attribute whose name is the value-kind table entry for the
type code (index panic outside 0–6) and whose value is the `data` field. -/
def writeValue (st : WState) (nType : Int) (data : String) : Option WState :=
  if nType = 7 then some st
  else
    match st.currKey with
    | none => none
    | some kid =>
      if 0 ≤ nType ∧ nType < 7 then
        some { st with nodes := st.nodes ++
          [⟨some kid, "Value", [(valueKindNames.getD nType.toNat "", data)]⟩] }
      else none

/-- One iteration of the `WriteTo` event loop (the Go `switch` on the event
type name; events with no matching case — in particular the seeding
BankFile event — are skipped). -/
def writeStep (st : WState) (e : Event) : Option WState :=
  if e.evtTypeName = EvtTypeBankSection then
    some { nodes := st.nodes ++ [⟨none, "Section", [("name", e.name)]⟩],
           currSection := some st.nodes.length,
           currKey := st.currKey }
  else if e.evtTypeName = EvtTypeBankKey then
    match st.currSection with
    | none => none
    | some sid =>
      let st' : WState :=
        { nodes := st.nodes ++ [⟨some sid, "Key", [("name", e.name)]⟩],
          currSection := st.currSection,
          currKey := some st.nodes.length }
      match e.type with
      | none => some st'
      | some t => writeValue st' t e.data
  else if e.evtTypeName = EvtTypeBankValue then
    writeValue st (e.type.getD 0) e.data
  else if e.evtTypeName = EvtTypeBankSignature then
    some { nodes := st.nodes ++
            [⟨none, "Signature",
              if e.signature.length > 0 then
                [("value", hexOfSignature e.signature)]
              else []⟩],
           currSection := some st.nodes.length,
           currKey := st.currKey }
  else some st

/-- The full `WriteTo` event loop over the bank's stored events. -/
def writeEvents : WState → List Event → Option WState
  | st, [] => some st
  | st, e :: rest =>
    match writeStep st e with
    | none => none
    | some st' => writeEvents st' rest

/-- The replay header/details fields `WriteTo` renders into the provenance
comments: `Details.Title()`, `Header.VersionString()`, `Header.Loops()`,
`Header.Duration()`. -/
structure RepInfo where
  title : String
  version : String
  loops : Int
  duration : String
deriving DecidableEq

/-- The document `WriteTo` builds: the provenance comments under the `Bank`
root (including the `time.Now()` timestamp), the root attributes, and the
elements created by the event loop. -/
structure BankDoc where
  comments : List String
  rootAttrs : List (String × String)
  nodes : List XNode
deriving DecidableEq

/-- `Bank.WriteTo` of bank.go, with the wall clock passed explicitly: the Go
code renders `fmt.Sprint(time.Now())` into the second comment, so the
output depends on the moment of the call; `now` is that rendered timestamp.
`toon` is the rendered `bank.Player.Toon`.  `none` models a runtime panic in
the event loop (nothing is written to `w` in that case, since etree
serializes the document only after the loop). -/
def writeTo (info : RepInfo) (toon : String) (bank : Bank) (now : String) :
    Option BankDoc :=
  match writeEvents ⟨[], none, none⟩ bank.events with
  | none => none
  | some st =>
    some { comments :=
            ["Bank recovered from a replay", now,
             "Title: " ++ info.title,
             "Version: " ++ info.version,
             "Loops: " ++ toString info.loops,
             "Length: " ++ info.duration,
             "Player: " ++ toon],
           rootAttrs := [("version", "1")],
           nodes := st.nodes }

/-- Attribute rendering ` k="v"` in order. -/
def renderAttrs (attrs : List (String × String)) : String :=
  String.join (attrs.map (fun p => " " ++ p.1 ++ "=" ++ "\"" ++ p.2 ++ "\""))

/-- Element rendering with two-space indentation, children looked up by
parent index.  The first argument is recursion fuel; `WriteTo` documents
nest at most Section → Key → Value, and the fuel passed by `renderDoc`
(the node count) always suffices. -/
def renderElem : Nat → List (Nat × XNode) → String → Nat × XNode → String
  | 0, _, ind, p =>
    ind ++ "<" ++ p.2.tag ++ renderAttrs p.2.attrs ++ "/>\n"
  | fuel + 1, all, ind, p =>
    let kids := all.filter (fun q => q.2.parent = some p.1)
    if kids.isEmpty then
      ind ++ "<" ++ p.2.tag ++ renderAttrs p.2.attrs ++ "/>\n"
    else
      ind ++ "<" ++ p.2.tag ++ renderAttrs p.2.attrs ++ ">\n" ++
      String.join (kids.map (renderElem fuel all (ind ++ "  "))) ++
      ind ++ "</" ++ p.2.tag ++ ">\n"

/-- The serialized byte stream of a `WriteTo` document (etree `Indent(2)`
followed by `doc.WriteTo(w)`): XML declaration, `Bank` root with its
attributes, the provenance comments, then the created elements.  The exact
formatting of etree is abstracted, but every comment (the timestamp
included), every element and every attribute appears in the output. -/
def renderDoc (d : BankDoc) : String :=
  let all := d.nodes.enum
  "<?xml version=" ++ "\"1.0\"" ++ " encoding=" ++ "\"UTF-8\"" ++ "?>\n" ++
  "<Bank" ++ renderAttrs d.rootAttrs ++ ">\n" ++
  String.join (d.comments.map (fun c => "  <!--" ++ c ++ "-->\n")) ++
  String.join ((all.filter (fun p => p.2.parent = none)).map
    (renderElem d.nodes.length all "  ")) ++
  "</Bank>\n"

/-- The bytes produced by one `WriteTo` call (`none` when the call
panics). -/
def writeToBytes (info : RepInfo) (toon : String) (bank : Bank)
    (now : String) : Option String :=
  (writeTo info toon bank now).map renderDoc


/-!
## Tracker analytics (`repm` tracker events file)

`float64` arithmetic is modelled over `ℝ`; `int64` over `ℤ` (Go `int64`
division truncates toward zero, which is `Int.div`).  The two normalization
loops of `angleToClock` (`for angle < 0 { angle += oneHour*12 }` and
`for angle >= oneHour*12 { angle -= oneHour*12 }`) compute the unique
representative of the angle modulo `oneHour*12 = 2π` lying in `[0, 2π)`,
written below in closed form with `Int.floor`. -/

/-- Go `int32(x)` / `int64(x)` conversion of a `float64`: truncation toward
zero. -/
noncomputable def truncTowardZero (x : ℝ) : ℤ :=
  if 0 ≤ x then ⌊x⌋ else ⌈x⌉

/-- `angleToClock` from the tracker-events file: shift the angle by 3.5
hour-units (one hour-unit is `π/6`), invert the direction, normalize into
`[0, 2π)`, divide by one hour-unit and truncate to get an hour in `0..11`,
then map hour 0 to 12 o'clock. -/
noncomputable def angleToClock (angle : ℝ) : ℤ :=
  let oneHour : ℝ := Real.pi / 6
  let shifted : ℝ := -angle + oneHour * 3.5
  let normalized : ℝ :=
    shifted - oneHour * 12 * ⌊shifted / (oneHour * 12)⌋
  let hour : ℤ := ⌊normalized / oneHour⌋
  if hour = 0 then 12 else hour

/-- `calcSQ` from the tracker-events file:
`int32(35*(0.00137*float64(income)-math.Log(float64(unspentResources))) + 240 + 0.5)`. -/
noncomputable def calcSQ (unspentResources income : ℤ) : ℤ :=
  truncTowardZero
    (35 * (0.00137 * (income : ℝ) - Real.log (unspentResources : ℝ))
      + 240 + 0.5)

/-- The spec's SQ formula, written exactly as the spec states it (for
comparison with `calcSQ` composed with the integer-division averages of the
code): `round(35 × (0.00137 × avgIncome − ln(avgUnspent)) + 240)` with the
averages taken as exact (real-valued) averages. -/
noncomputable def sqSpecFormula (avgUnspent avgIncome : ℝ) : ℤ :=
  round (35 * (0.00137 * avgIncome - Real.log avgUnspent) + 240)

/-- The score fields one `PlayerStats` tracker event contributes (read via
`ss.Int(...)` on the `stats` sub-struct). -/
structure StatsSample where
  mineralsCurrent : ℤ
  vespeneCurrent : ℤ
  mineralsRate : ℤ
  vespeneRate : ℤ
  foodUsed : ℤ
  foodMade : ℤ
deriving DecidableEq

/-- The per-player `stats` accumulator of `TrackerEvts.init`. -/
structure Stats where
  samples : ℤ
  unspents : ℤ
  incomes : ℤ
  supCapped : ℤ
deriving DecidableEq

/-- One `PlayerStats` event applied to the accumulator (the
`TrackerEvtIDPlayerStats` branch of the second scan of `init`). -/
def statsStep (st : Stats) (ss : StatsSample) : Stats :=
  { samples := st.samples + 1,
    unspents := st.unspents + ss.mineralsCurrent + ss.vespeneCurrent,
    incomes := st.incomes + ss.mineralsRate + ss.vespeneRate,
    supCapped :=
      if ss.foodMade ≤ ss.foodUsed then st.supCapped + 1 else st.supCapped }

/-- The accumulator after a player's whole sequence of `PlayerStats`
samples. -/
def accumStats (samples : List StatsSample) : Stats :=
  samples.foldl statsStep ⟨0, 0, 0, 0⟩

/-- The SQ and supply-capped fields of a `PlayerDesc` after the finalize
loop of `init`; `none` models a field the loop never wrote (the `continue`
for a player with zero samples leaves the zero-valued fields untouched). -/
structure PlayerSQ where
  SQ : Option ℤ
  supplyCappedPercent : Option ℤ
deriving DecidableEq

/-- The finalize step of `TrackerEvts.init` for one player's accumulator:
skip when there are no samples, otherwise
`pd.SQ = calcSQ(st.unspents/st.samples, st.incomes/st.samples)` and
`pd.SupplyCappedPercent = int32(st.supCapped * 100 / st.samples)` with Go
`int64` division (truncation toward zero). -/
noncomputable def finalizeStats (st : Stats) : PlayerSQ :=
  if st.samples = 0 then ⟨none, none⟩
  else
    ⟨some (calcSQ (Int.tdiv st.unspents st.samples)
            (Int.tdiv st.incomes st.samples)),
     some (Int.tdiv (st.supCapped * 100) st.samples)⟩

/-!
## Replay session construction (`repm.newRep` and wrappers)

The external collaborators (the mpq archive reader and the s2prot protocol
decoder) are black boxes; each call the construction sequence makes is
modelled as an oracle result held in an environment record.  The decoders
intentionally omit defensive checks, so every such result may be a runtime
fault (`PRes.panic`).  The deferred function of `newRep` closes the archive
unless the `closeMPQ` flag was cleared (which happens only immediately
before the successful return) and converts a recovered panic into
`ErrDecoding`; `newRep` below returns the classified outcome together with
the number of times the archive handle was closed during construction.
-/

namespace repm

/-- Result of a call into untrusted decoding code: a value, or a Go runtime
fault (panic). -/
inductive PRes (α : Type) where
  | ok (a : α)
  | panic
deriving DecidableEq

/-- The classified errors of session construction
(`rep.ErrInvalidRepFile`, `rep.ErrUnsupportedRepVersion`,
`rep.ErrDecoding`). -/
inductive RepError where
  | ErrInvalidRepFile
  | ErrUnsupportedRepVersion
  | ErrDecoding
deriving DecidableEq

/-- The constructed `Rep` value, with the fields the construction sequence
writes that the claims mention; `hasMPQ` records that the session holds the
(non-nil) archive handle `m`. -/
structure Rep where
  baseBuild : Int
  protocol : Nat
  gameEvts : List Event
  messageEvts : List Event
  trackerEvts : List Event
  gameEvtsErr : Bool
  messageEvtsErr : Bool
  trackerEvtsErr : Bool
  hasMPQ : Bool
deriving DecidableEq

/-- Outcome of running the body of `newRep` without the deferred recover:
a session, a classified error returned by an explicit `return`, or a
propagating runtime fault. -/
inductive RawOut where
  | ok (r : Rep)
  | err (e : RepError)
  | panicked
deriving DecidableEq

/-- Oracle environment: the result of every external call `newRep` makes,
in the order the Go code makes them.  File reads model
`m.FileByHash(...)`: `none` is a non-nil error, `some data` the returned
bytes (`replay.gamemetadata.json` additionally distinguishes nil data,
which the code tolerates).  Decoder calls and the tracker preprocessing
(`TrackerEvts.init`) may panic. -/
structure Env where
  decodeHeader : PRes (Option Int)
  getProtocol : Int → Option Nat
  maxBaseBuild : Int
  fileDetails : PRes (Option (List Nat))
  fileDetailsBackup : PRes (Option (List Nat))
  fileInitData : PRes (Option (List Nat))
  fileInitDataBackup : PRes (Option (List Nat))
  fileAttrEvts : PRes (Option (List Nat))
  fileMetadata : PRes (Option (Option (List Nat)))
  fileGameEvts : PRes (Option (List Nat))
  fileMessageEvts : PRes (Option (List Nat))
  fileTrackerEvts : PRes (Option (List Nat))
  decodeDetails : List Nat → PRes Unit
  decodeInitData : List Nat → PRes Unit
  decodeAttrEvts : List Nat → PRes Unit
  jsonUnmarshalMetadata : List Nat → PRes Bool
  decodeGameEvts : List Nat → PRes (List Event × Bool)
  decodeMessageEvts : List Nat → PRes (List Event × Bool)
  decodeTrackerEvts : List Nat → PRes (List Event × Bool)
  trackerInit : PRes Unit

/-- Sequence a possibly-panicking call: a panic propagates out of the body
(to be recovered at the construction boundary). -/
def pstep {α : Type} : PRes α → (α → RawOut) → RawOut
  | PRes.panic, _ => RawOut.panicked
  | PRes.ok a, k => k a

/-- The primary/backup read for `replay.details` and `replay.initData`:
retry the backup resource when the primary read errors or returns empty
data, and fail with `ErrInvalidRepFile` when the backup does too. -/
def readWithBackup (primary backup : PRes (Option (List Nat)))
    (k : List Nat → RawOut) : RawOut :=
  let retry : RawOut :=
    pstep backup fun b? =>
      match b? with
      | none => RawOut.err RepError.ErrInvalidRepFile
      | some b =>
        if b.isEmpty then RawOut.err RepError.ErrInvalidRepFile else k b
  pstep primary fun d? =>
    match d? with
    | none => retry
    | some d => if d.isEmpty then retry else k d

/-- The metadata step: `replay.gamemetadata.json` may be absent (nil data
— tolerated, it was added around 3.7), but present data must parse as
JSON or the whole construction fails with `ErrInvalidRepFile`. -/
def metadataCheck (mdData? : Option (List Nat))
    (unmarshal : List Nat → PRes Bool) (k : RawOut) : RawOut :=
  match mdData? with
  | none => k
  | some mdData =>
    pstep (unmarshal mdData) fun parsed =>
      if parsed then k else RawOut.err RepError.ErrInvalidRepFile

/-- One optional event-stream stage of `newRep` (game and message events):
when requested, a failed file read is `ErrInvalidRepFile` and the decoded
events are handed on together with the per-stream error flag; when not
requested, the stream stays empty with a clear flag. -/
def evtStream (enabled : Bool) (file : PRes (Option (List Nat)))
    (decode : List Nat → PRes (List Event × Bool))
    (k : List Event → Bool → RawOut) : RawOut :=
  if enabled then
    pstep file fun d? =>
      match d? with
      | none => RawOut.err RepError.ErrInvalidRepFile
      | some data => pstep (decode data) fun res => k res.1 res.2
  else k [] false

/-- The tracker stage additionally runs the `TrackerEvts.init`
preprocessing (which may itself fault) before continuing. -/
def trackerStream (enabled : Bool) (file : PRes (Option (List Nat)))
    (decode : List Nat → PRes (List Event × Bool)) (init : PRes Unit)
    (k : List Event → Bool → RawOut) : RawOut :=
  if enabled then
    pstep file fun d? =>
      match d? with
      | none => RawOut.err RepError.ErrInvalidRepFile
      | some data =>
        pstep (decode data) fun res =>
          pstep init fun _ => k res.1 res.2
  else k [] false

/-- The body of `newRep` (the Go function without its deferred recover):
header decode, protocol lookup with fallback to the highest known build,
details and init data with backup resources, attribute events, optional
metadata, then the three event streams gated by the `game`, `message` and
`tracker` parameters, each recording a per-stream error flag. -/
def newRepRaw (env : Env) (game message tracker : Bool) : RawOut :=
  pstep env.decodeHeader fun h =>
  match h with
  | none => RawOut.err RepError.ErrInvalidRepFile
  | some bb =>
    let p? : Option Nat :=
      match env.getProtocol bb with
      | some p => some p
      | none => env.getProtocol env.maxBaseBuild
    match p? with
    | none => RawOut.err RepError.ErrUnsupportedRepVersion
    | some p =>
      readWithBackup env.fileDetails env.fileDetailsBackup fun dData =>
      pstep (env.decodeDetails dData) fun _ =>
      readWithBackup env.fileInitData env.fileInitDataBackup fun iData =>
      pstep (env.decodeInitData iData) fun _ =>
      pstep env.fileAttrEvts fun a? =>
      match a? with
      | none => RawOut.err RepError.ErrInvalidRepFile
      | some aData =>
        pstep (env.decodeAttrEvts aData) fun _ =>
        pstep env.fileMetadata fun md? =>
        match md? with
        | none => RawOut.err RepError.ErrInvalidRepFile
        | some mdData? =>
          metadataCheck mdData? env.jsonUnmarshalMetadata
            (evtStream game env.fileGameEvts env.decodeGameEvts
              fun gameEvts gameErr =>
              evtStream message env.fileMessageEvts env.decodeMessageEvts
                fun messageEvts messageErr =>
                trackerStream tracker env.fileTrackerEvts
                  env.decodeTrackerEvts env.trackerInit
                  fun trackerEvts trackerErr =>
                  RawOut.ok
                    { baseBuild := bb, protocol := p,
                      gameEvts := gameEvts, messageEvts := messageEvts,
                      trackerEvts := trackerEvts,
                      gameEvtsErr := gameErr,
                      messageEvtsErr := messageErr,
                      trackerEvtsErr := trackerErr,
                      hasMPQ := true })

/-- `newRep` with its deferred function applied at the construction
boundary: the archive is closed (count 1) unless `closeMPQ` was cleared,
which happens only on the successful return (count 0), and a recovered
panic becomes the classified `ErrDecoding`.  The second component is the
number of `m.Close()` calls made during construction. -/
def newRep (env : Env) (game message tracker : Bool) : RawOut × Nat :=
  match newRepRaw env game message tracker with
  | RawOut.ok r => (RawOut.ok r, 0)
  | RawOut.err e => (RawOut.err e, 1)
  | RawOut.panicked => (RawOut.err RepError.ErrDecoding, 1)

/-- `NewFromFileEvts` / `NewEvts`: opening the container (`mpq.NewFromFile`
/ `mpq.New`) either fails — the byte sequence is not a valid archive, and
the classified `ErrInvalidRepFile` is returned with no archive to close —
or yields the environment `newRep` runs against. -/
def NewEvtsModel (container : Option Env) (game message tracker : Bool) :
    RawOut × Nat :=
  match container with
  | none => (RawOut.err RepError.ErrInvalidRepFile, 0)
  | some env => newRep env game message tracker

/-- `Rep.Close`: a no-op when the session holds no archive handle
(`r.m == nil`), otherwise it forwards to `m.Close()` — modelled as
incrementing the count of archive releases.  Note the handle field is never
cleared, so every call on a constructed session forwards to the archive. -/
def Rep.Close (r : Rep) (archiveCloses : Nat) : Nat :=
  if r.hasMPQ then archiveCloses + 1 else archiveCloses

end repm

/-!
## Concrete events used by counterexamples and witnesses
-/

/-- A BankFile event of user `u` declaring bank `nm` at loop 0. -/
def evFile (u : Nat) (nm : String) : Event :=
  ⟨EvtTypeBankFile, 0, u, nm, none, "", []⟩

/-- A BankSection event of user `u` at loop 0. -/
def evSection (u : Nat) (nm : String) : Event :=
  ⟨EvtTypeBankSection, 0, u, nm, none, "", []⟩

/-- A BankKey event of user `u` at loop 0 with no inline `type` field. -/
def evKey (u : Nat) (nm : String) : Event :=
  ⟨EvtTypeBankKey, 0, u, nm, none, "", []⟩

/-- A BankValue event of user `u` at loop 0 with type code `t` and payload
`d`. -/
def evValue (u : Nat) (t : Int) (d : String) : Event :=
  ⟨EvtTypeBankValue, 0, u, "", some t, d, []⟩

/-- The replay header/details fields used by the concrete serialization
examples. -/
def infoEx : RepInfo := ⟨"MapTitle", "3.16.1", 5000, "20m"⟩

/-- A well-formed concrete bank: file marker, one section, one key, one
inline int value. -/
def bankEx : Bank :=
  ⟨"b", 0, [evFile 0 "b", evSection 0 "s", evKey 0 "k", evValue 0 2 "5"]⟩

/-- The stream of the claim's deferred-value scenario with a BankSection
inserted so that the BankKey has a parent to attach to. -/
def c2Events (t : Int) (d : String) : List Event :=
  [evFile 0 "b", evSection 0 "s", evKey 0 "k", evValue 0 7 "deferred",
   evValue 0 t d]

/-- The claim's stated precondition on a stored event sequence, tracked
positionally: every BankKey event is preceded by some BankSection event,
every standalone BankValue event is preceded by some BankKey event, and
every value-bearing occurrence (a BankValue, or a BankKey with an inline
`type` field) has a type code in [0, 7].  The two booleans record whether a
BankSection (resp. BankKey) event has occurred earlier. -/
def writePreB : Bool → Bool → List Event → Bool
  | _, _, [] => true
  | hasSec, hasKey, e :: rest =>
    if e.evtTypeName = EvtTypeBankSection then writePreB true hasKey rest
    else if e.evtTypeName = EvtTypeBankKey then
      hasSec &&
      (match e.type with
       | none => true
       | some t => decide (0 ≤ t) && decide (t ≤ 7)) &&
      writePreB hasSec true rest
    else if e.evtTypeName = EvtTypeBankValue then
      hasKey && decide (0 ≤ e.type.getD 0) && decide (e.type.getD 0 ≤ 7) &&
      writePreB hasSec hasKey rest
    else writePreB hasSec hasKey rest

/-- The fractional position of the shifted, direction-inverted angle
within one full turn. -/
noncomputable def clockFract (x : ℝ) : ℝ :=
  Int.fract ((-x + Real.pi / 6 * 3.5) / (2 * Real.pi))

/-- The hour value in 0..11 the normalization computes. -/
noncomputable def clockHour (x : ℝ) : ℤ :=
  ⌊12 * clockFract x⌋

/-- An oracle environment on which every external call succeeds. -/
def envOK : repm.Env :=
  { decodeHeader := repm.PRes.ok (some 80949),
    getProtocol := fun _ => some 1,
    maxBaseBuild := 90000,
    fileDetails := repm.PRes.ok (some [1]),
    fileDetailsBackup := repm.PRes.ok none,
    fileInitData := repm.PRes.ok (some [1]),
    fileInitDataBackup := repm.PRes.ok none,
    fileAttrEvts := repm.PRes.ok (some [1]),
    fileMetadata := repm.PRes.ok (some none),
    fileGameEvts := repm.PRes.ok (some [1]),
    fileMessageEvts := repm.PRes.ok (some [1]),
    fileTrackerEvts := repm.PRes.ok (some [1]),
    decodeDetails := fun _ => repm.PRes.ok (),
    decodeInitData := fun _ => repm.PRes.ok (),
    decodeAttrEvts := fun _ => repm.PRes.ok (),
    jsonUnmarshalMetadata := fun _ => repm.PRes.ok true,
    decodeGameEvts := fun _ => repm.PRes.ok ([], false),
    decodeMessageEvts := fun _ => repm.PRes.ok ([], false),
    decodeTrackerEvts := fun _ => repm.PRes.ok ([], false),
    trackerInit := repm.PRes.ok () }

/-- An oracle environment whose very first decoder call (the header
decode) raises a runtime fault. -/
def envPanic : repm.Env :=
  { envOK with decodeHeader := repm.PRes.panic }

/-- The session `envOK` constructs. -/
def repEx : repm.Rep := ⟨80949, 1, [], [], [], false, false, false, true⟩

/-- Every session value the raw construction body can return holds the
archive handle (this is the ownership-transfer half of the release
discipline). -/
def okImpliesMPQ (o : repm.RawOut) : Prop :=
  ∀ r, o = repm.RawOut.ok r → r.hasMPQ = true

/-!
## Helper lemmas
-/

/-- A BankFile-typed event is a bank event. -/
theorem isBankEvent_of_file {e : Event}
    (h : e.evtTypeName = EvtTypeBankFile) : isBankEvent e = true := by
  simp [isBankEvent, h]

/-- Unfolding one step of the reconstruction loop on a non-file bank event
whose user's map holds the current bank: the event is appended there. -/
theorem banksGo_content_append (e : Event) (rest : List Event)
    (nameCurr : String) (st : List (List (String × Bank)))
    (m : List (String × Bank)) (b : Bank)
    (hl : e.loop ≤ 0) (hb : isBankEvent e = true)
    (hnf : e.evtTypeName ≠ EvtTypeBankFile)
    (hm : st.get? e.userID = some m) (hcur : mapGet m nameCurr = some b) :
    banksGo (e :: rest) nameCurr st =
      banksGo rest nameCurr
        (st.set e.userID (mapPut m nameCurr (AddGameEvent b e).1)) := by
  rw [banksGo, if_neg (by omega), if_neg (by simp [hb]), if_neg hnf, hm]
  simp only [hcur]

/-- Unfolding one step of the reconstruction loop on a non-file bank event
whose user's map has no bank under the current name: the event is
dropped. -/
theorem banksGo_content_drop (e : Event) (rest : List Event)
    (nameCurr : String) (st : List (List (String × Bank)))
    (m : List (String × Bank))
    (hl : e.loop ≤ 0) (hb : isBankEvent e = true)
    (hnf : e.evtTypeName ≠ EvtTypeBankFile)
    (hm : st.get? e.userID = some m) (hcur : mapGet m nameCurr = none) :
    banksGo (e :: rest) nameCurr st = banksGo rest nameCurr st := by
  rw [banksGo, if_neg (by omega), if_neg (by simp [hb]), if_neg hnf, hm]
  simp only [hcur]

/-- Unfolding one step of the reconstruction loop on a BankFile event: the
current bank name becomes this event's `name` for the rest of the pass
(whatever the event's user is) and a fresh bank is registered for the
event's user under that name. -/
theorem banksGo_file (e : Event) (rest : List Event) (nameCurr : String)
    (st : List (List (String × Bank))) (m : List (String × Bank))
    (hl : e.loop ≤ 0) (hf : e.evtTypeName = EvtTypeBankFile)
    (hm : st.get? e.userID = some m) :
    banksGo (e :: rest) nameCurr st =
      banksGo rest e.name
        (st.set e.userID
          (mapPut m e.name ⟨e.name, e.userID, [e]⟩)) := by
  rw [banksGo, if_neg (by omega), if_neg (by simp [isBankEvent_of_file hf]),
    if_pos hf, hm]
  rw [NewBank, if_neg (by simp [hf])]

/-- Invariant for C9: a user whose map is empty and for whom the remaining
events contain no BankFile event keeps an empty map to the end of a
successful pass. -/
theorem banksGo_no_file_keeps_empty (evts : List Event) :
    ∀ (nameCurr : String) (st st' : List (List (String × Bank))) (u : Nat),
    banksGo evts nameCurr st = some st' →
    st.get? u = some [] →
    (∀ e ∈ evts, ¬(e.evtTypeName = EvtTypeBankFile ∧ e.userID = u)) →
    st'.get? u = some [] := by
  induction evts with
  | nil =>
    intro nameCurr st st' u hrun hu _
    rw [banksGo] at hrun
    cases hrun
    exact hu
  | cons e rest ih =>
    intro nameCurr st st' u hrun hu hnof
    by_cases hl : e.loop > 0
    · rw [banksGo, if_pos hl] at hrun
      cases hrun
      exact hu
    · by_cases hb : isBankEvent e
      · by_cases hf : e.evtTypeName = EvtTypeBankFile
        · have hne : e.userID ≠ u := fun hEq => hnof e (by simp) ⟨hf, hEq⟩
          cases hm : st.get? e.userID with
          | none =>
            rw [banksGo, if_neg hl, if_neg (by simp [hb]), if_pos hf,
              hm] at hrun
            simp at hrun
          | some m =>
            rw [banksGo_file e rest nameCurr st m (by omega) hf hm] at hrun
            refine ih _ _ _ u hrun ?_ (fun x hx => hnof x (by simp [hx]))
            rw [List.get?_set_ne _ _ hne]
            exact hu
        · cases hm : st.get? e.userID with
          | none =>
            rw [banksGo, if_neg hl, if_neg (by simp [hb]), if_neg hf,
              hm] at hrun
            simp at hrun
          | some m =>
            by_cases hEq : e.userID = u
            · have hm0 : m = [] := by
                rw [hEq, hu] at hm
                exact (Option.some_inj.mp hm).symm
              subst hm0
              rw [banksGo_content_drop e rest nameCurr st [] (by omega) hb
                hf hm rfl] at hrun
              exact ih _ _ _ u hrun hu (fun x hx => hnof x (by simp [hx]))
            · cases hcur : mapGet m nameCurr with
              | none =>
                rw [banksGo_content_drop e rest nameCurr st m (by omega) hb
                  hf hm hcur] at hrun
                exact ih _ _ _ u hrun hu (fun x hx => hnof x (by simp [hx]))
              | some b =>
                rw [banksGo_content_append e rest nameCurr st m b (by omega)
                  hb hf hm hcur] at hrun
                refine ih _ _ _ u hrun ?_
                  (fun x hx => hnof x (by simp [hx]))
                rw [List.get?_set_ne _ _ hEq]
                exact hu
      · rw [banksGo, if_neg hl, if_pos (by simpa using hb)] at hrun
        exact ih _ _ _ u hrun hu (fun x hx => hnof x (by simp [hx]))

/-- The serializer loop splits over list concatenation. -/
theorem writeEvents_append (l1 l2 : List Event) :
    ∀ st, writeEvents st (l1 ++ l2) =
      (writeEvents st l1).bind (fun st' => writeEvents st' l2) := by
  induction l1 with
  | nil => intro st; rfl
  | cons e rest ih =>
    intro st
    rw [List.cons_append, writeEvents, writeEvents]
    cases writeStep st e with
    | none => rfl
    | some st' => exact ih st'



/-!
## C1
-/

/-- C1: the claim says a Section/Key/Value/Signature event is appended to
the bank identified by the most recent BankFile event seen for that event's
own user.  On the stream `[BankFile(user 0, "x"), BankFile(user 1, "y"),
BankSection(user 0)]` the most recent BankFile of user 0 names "x", yet the
code drops the section event — its routing uses the single shared
`bankNameCurr` ("y" at that point), not a per-user current bank — so bank
(0, "x") still holds only its seeding event. -/
theorem c1_counterexample :
    NewBanksFromReplay 2 [evFile 0 "x", evFile 1 "y", evSection 0 "s"] =
      some [[("x", ⟨"x", 0, [evFile 0 "x"]⟩)],
            [("y", ⟨"y", 1, [evFile 1 "y"]⟩)]] ∧
    ((NewBanksFromReplay 2
        [evFile 0 "x", evFile 1 "y", evSection 0 "s"]).bind
      (fun st => (st.get? 0).bind
        (fun m => (mapGet m "x").map
          (fun b => b.events.contains (evSection 0 "s"))))) = some false := by
  constructor
  · decide
  · decide

/-- C1 (amended): `NewBanksFromReplay` keeps one current bank name shared
across all users — a BankFile event from any user overwrites it.  A
Section/Key/Value/Signature event is appended to the bank of its own user
registered under that shared name when one exists, and is dropped
otherwise; a BankFile event registers a fresh bank for its user under its
name and makes that name current for everyone.  In particular, on
`[BankFile(user 0, "x"), BankFile(user 1, "x"), BankSection(user 0)]` the
section event does reach bank (0, "x") because user 1's BankFile put the
same name back into the shared slot. -/
theorem c1_amended :
    (∀ (e : Event) (rest : List Event) (nameCurr : String)
       (st : List (List (String × Bank))) (m : List (String × Bank))
       (b : Bank),
       e.loop ≤ 0 → isBankEvent e = true →
       e.evtTypeName ≠ EvtTypeBankFile →
       st.get? e.userID = some m → mapGet m nameCurr = some b →
       banksGo (e :: rest) nameCurr st =
         banksGo rest nameCurr
           (st.set e.userID
             (mapPut m nameCurr (AddGameEvent b e).1))) ∧
    (∀ (e : Event) (rest : List Event) (nameCurr : String)
       (st : List (List (String × Bank))) (m : List (String × Bank)),
       e.loop ≤ 0 → isBankEvent e = true →
       e.evtTypeName ≠ EvtTypeBankFile →
       st.get? e.userID = some m → mapGet m nameCurr = none →
       banksGo (e :: rest) nameCurr st = banksGo rest nameCurr st) ∧
    (∀ (e : Event) (rest : List Event) (nameCurr : String)
       (st : List (List (String × Bank))) (m : List (String × Bank)),
       e.loop ≤ 0 → e.evtTypeName = EvtTypeBankFile →
       st.get? e.userID = some m →
       banksGo (e :: rest) nameCurr st =
         banksGo rest e.name
           (st.set e.userID (mapPut m e.name ⟨e.name, e.userID, [e]⟩))) ∧
    NewBanksFromReplay 2 [evFile 0 "x", evFile 1 "x", evSection 0 "s"] =
      some [[("x", ⟨"x", 0, [evFile 0 "x", evSection 0 "s"]⟩)],
            [("x", ⟨"x", 1, [evFile 1 "x"]⟩)]] := by
  refine ⟨banksGo_content_append, banksGo_content_drop, banksGo_file, ?_⟩
  decide

/-- C1 witness: the append equation of `c1_amended` applied to a concrete
step. -/
theorem c1_amended_witness :
    ((evSection 0 "s").loop ≤ 0 ∧ isBankEvent (evSection 0 "s") = true ∧
     (evSection 0 "s").evtTypeName ≠ EvtTypeBankFile ∧
     ([[("x", Bank.mk "x" 0 [evFile 0 "x"])]].get?
        (evSection 0 "s").userID = some [("x", Bank.mk "x" 0 [evFile 0 "x"])]) ∧
     mapGet [("x", Bank.mk "x" 0 [evFile 0 "x"])] "x" =
       some (Bank.mk "x" 0 [evFile 0 "x"])) ∧
    banksGo [evSection 0 "s"] "x" [[("x", Bank.mk "x" 0 [evFile 0 "x"])]] =
      banksGo [] "x"
        ([[("x", Bank.mk "x" 0 [evFile 0 "x"])]].set
          (evSection 0 "s").userID
          (mapPut [("x", Bank.mk "x" 0 [evFile 0 "x"])] "x"
            (AddGameEvent (Bank.mk "x" 0 [evFile 0 "x"])
              (evSection 0 "s")).1)) :=
  ⟨⟨by decide, by decide, by decide, by decide, by decide⟩,
   c1_amended.1 (evSection 0 "s") [] "x"
     [[("x", Bank.mk "x" 0 [evFile 0 "x"])]]
     [("x", Bank.mk "x" 0 [evFile 0 "x"])] (Bank.mk "x" 0 [evFile 0 "x"])
     (by decide) (by decide) (by decide) (by decide) (by decide)⟩

/-!
## C9
-/

/-- C9: a bank-content event arriving before any BankFile event of its own
user is dropped without fault: if a successful pass sees no BankFile event
of user `u` at all, user `u`'s resulting bank map is empty — in particular
no content event of `u` created or entered any bank document. -/
theorem c9_content_before_file_dropped
    (numPlayers : Nat) (evts : List Event) (u : Nat)
    (st : List (List (String × Bank)))
    (hrun : NewBanksFromReplay numPlayers evts = some st)
    (hu : u < numPlayers)
    (hnof : ∀ e ∈ evts, ¬(e.evtTypeName = EvtTypeBankFile ∧ e.userID = u)) :
    st.get? u = some [] := by
  refine banksGo_no_file_keeps_empty evts "" _ st u hrun ?_ hnof
  rw [List.get?_eq_getElem?, List.getElem?_replicate]
  simp [hu]

/-- C9 witness: a lone BankSection event of user 0 with no BankFile leaves
user 0's bank map empty. -/
theorem c9_witness :
    (NewBanksFromReplay 1 [evSection 0 "s"] = some [[]] ∧ 0 < 1 ∧
      (∀ e ∈ [evSection 0 "s"],
        ¬(e.evtTypeName = EvtTypeBankFile ∧ e.userID = 0))) ∧
    ([[]] : List (List (String × Bank))).get? 0 = some [] :=
  ⟨⟨by decide, by decide, by decide⟩,
   c9_content_before_file_dropped 1 [evSection 0 "s"] 0 [[]]
     (by decide) (by decide) (by decide)⟩

/-!
## C5: angleToClock
-/



/-- `angleToClock` in terms of the fractional turn: the normalization
loops reduce the shifted angle modulo `2π`, and dividing by one hour-unit
scales the fractional turn by 12. -/
theorem angleToClock_eq (x : ℝ) :
    angleToClock x = if clockHour x = 0 then 12 else clockHour x := by
  unfold angleToClock clockHour clockFract
  have hp : Real.pi ≠ 0 := Real.pi_ne_zero
  have h1 : Real.pi / 6 * 12 = 2 * Real.pi := by ring
  have key :
      (-x + Real.pi / 6 * 3.5 -
        Real.pi / 6 * 12 *
          ⌊(-x + Real.pi / 6 * 3.5) / (Real.pi / 6 * 12)⌋) /
        (Real.pi / 6) =
      12 * Int.fract ((-x + Real.pi / 6 * 3.5) / (2 * Real.pi)) := by
    rw [h1, Int.fract]
    field_simp
    ring
  dsimp only
  rw [key]

/-- The hour value lies in 0..11. -/
theorem clockHour_mem (x : ℝ) : 0 ≤ clockHour x ∧ clockHour x ≤ 11 := by
  have hf0 : 0 ≤ clockFract x := Int.fract_nonneg _
  have hf1 : clockFract x < 1 := Int.fract_lt_one _
  unfold clockHour
  constructor
  · exact Int.floor_nonneg.mpr (by nlinarith)
  · have h12 : (12 : ℝ) * clockFract x < ((12 : ℤ) : ℝ) := by
      push_cast
      nlinarith
    have := Int.floor_lt.mpr h12
    omega

/-- C5: `angleToClock` (the source's `float64` arithmetic modelled over
the reals) maps every angle to a clock value in [1, 12], sends `π/2` to
12 o'clock, `0` to 3 o'clock and `π` to 9 o'clock, and is periodic with
period `2π`. -/
theorem c5_angleToClock :
    (∀ θ : ℝ, 1 ≤ angleToClock θ ∧ angleToClock θ ≤ 12) ∧
    angleToClock (Real.pi / 2) = 12 ∧
    angleToClock 0 = 3 ∧
    angleToClock Real.pi = 9 ∧
    (∀ θ : ℝ, angleToClock (θ + 2 * Real.pi) = angleToClock θ) := by
  have h35 : (3.5 : ℝ) = 7 / 2 := by norm_num
  have hp : Real.pi ≠ 0 := Real.pi_ne_zero
  refine ⟨fun θ => ?_, ?_, ?_, ?_, fun θ => ?_⟩
  · rw [angleToClock_eq]
    rcases clockHour_mem θ with ⟨h0, h11⟩
    by_cases hz : clockHour θ = 0
    · rw [if_pos hz]; exact ⟨by norm_num, le_refl _⟩
    · rw [if_neg hz]; omega
  · have harg : (-(Real.pi / 2) + Real.pi / 6 * 3.5) / (2 * Real.pi) =
        1 / 24 := by
      rw [h35, div_eq_iff (by positivity : (2 : ℝ) * Real.pi ≠ 0)]
      ring
    have hfr : clockFract (Real.pi / 2) = 1 / 24 := by
      unfold clockFract
      rw [harg]
      exact Int.fract_eq_self.mpr ⟨by norm_num, by norm_num⟩
    have hh : clockHour (Real.pi / 2) = 0 := by
      unfold clockHour
      rw [hfr]
      rw [Int.floor_eq_iff]
      norm_num
    rw [angleToClock_eq, if_pos hh]
  · have harg : (-(0 : ℝ) + Real.pi / 6 * 3.5) / (2 * Real.pi) =
        7 / 24 := by
      rw [h35, div_eq_iff (by positivity : (2 : ℝ) * Real.pi ≠ 0)]
      ring
    have hfr : clockFract 0 = 7 / 24 := by
      unfold clockFract
      rw [harg]
      exact Int.fract_eq_self.mpr ⟨by norm_num, by norm_num⟩
    have hh : clockHour 0 = 3 := by
      unfold clockHour
      rw [hfr]
      rw [Int.floor_eq_iff]
      constructor
      · norm_num
      · norm_num
    rw [angleToClock_eq, if_neg (by rw [hh]; omega), hh]
  · have harg : (-Real.pi + Real.pi / 6 * 3.5) / (2 * Real.pi) =
        -5 / 24 := by
      rw [h35, div_eq_iff (by positivity : (2 : ℝ) * Real.pi ≠ 0)]
      ring
    have hfl : ⌊(-5 / 24 : ℝ)⌋ = -1 := by
      rw [Int.floor_eq_iff]
      constructor
      · norm_num
      · norm_num
    have hfr : clockFract Real.pi = 19 / 24 := by
      unfold clockFract
      rw [harg, Int.fract, hfl]
      norm_num
    have hh : clockHour Real.pi = 9 := by
      unfold clockHour
      rw [hfr]
      rw [Int.floor_eq_iff]
      constructor
      · norm_num
      · norm_num
    rw [angleToClock_eq, if_neg (by rw [hh]; omega), hh]
  · have harg : (-(θ + 2 * Real.pi) + Real.pi / 6 * 3.5) /
        (2 * Real.pi) =
        (-θ + Real.pi / 6 * 3.5) / (2 * Real.pi) - 1 := by
      field_simp
      ring
    have hfr : clockFract (θ + 2 * Real.pi) = clockFract θ := by
      unfold clockFract
      rw [harg, show (1 : ℝ) = ((1 : ℤ) : ℝ) by norm_num,
        Int.fract_sub_int]
    rw [angleToClock_eq, angleToClock_eq]
    unfold clockHour
    rw [hfr]

/-!
## C6: SQ and supply-capped finalize
-/

/-- Unfolded accumulation: the fold adds the per-sample contributions onto
any starting accumulator. -/
theorem foldl_statsStep (l : List StatsSample) :
    ∀ st : Stats, l.foldl statsStep st =
      ⟨st.samples + l.length,
       st.unspents +
         (l.map (fun s => s.mineralsCurrent + s.vespeneCurrent)).sum,
       st.incomes + (l.map (fun s => s.mineralsRate + s.vespeneRate)).sum,
       st.supCapped +
         (l.countP (fun s => decide (s.foodMade ≤ s.foodUsed)) : ℤ)⟩ := by
  induction l with
  | nil =>
    intro st
    cases st
    simp
  | cons s rest ih =>
    intro st
    rw [List.foldl_cons, ih]
    unfold statsStep
    by_cases hc : s.foodMade ≤ s.foodUsed
    · rw [if_pos hc]
      simp only [List.map_cons, List.sum_cons, List.length_cons,
        List.countP_cons, decide_eq_true_eq, if_pos hc]
      simp only [Stats.mk.injEq]
      refine ⟨?_, by ring, by ring, ?_⟩
      · push_cast
        ring
      · push_cast
        ring
    · rw [if_neg hc]
      simp only [List.map_cons, List.sum_cons, List.length_cons,
        List.countP_cons, decide_eq_true_eq, if_neg hc]
      simp only [Stats.mk.injEq]
      refine ⟨?_, by ring, by ring, ?_⟩
      · push_cast
        ring
      · push_cast
        ring

/-- The accumulator after a player's samples: count, totals and
supply-capped count. -/
theorem accumStats_spec (l : List StatsSample) :
    accumStats l =
      ⟨(l.length : ℤ),
       (l.map (fun s => s.mineralsCurrent + s.vespeneCurrent)).sum,
       (l.map (fun s => s.mineralsRate + s.vespeneRate)).sum,
       (l.countP (fun s => decide (s.foodMade ≤ s.foodUsed)) : ℤ)⟩ := by
  unfold accumStats
  rw [foldl_statsStep]
  simp

/-- `calcSQ 1 10 = 240`: at truncated average unspent 1 and truncated
average income 10 the code's formula evaluates to 240. -/
theorem calcSQ_one_ten : calcSQ 1 10 = 240 := by
  unfold calcSQ truncTowardZero
  rw [show (((1 : ℤ) : ℝ)) = (1 : ℝ) by norm_num, Real.log_one]
  rw [if_pos (by norm_num)]
  rw [Int.floor_eq_iff]
  constructor
  · norm_num
  · norm_num

/-- The spec's formula at the exact averages of the same samples:
`round(35·(0.00137·10.5 − ln 1) + 240) = 241`. -/
theorem sqSpecFormula_ce : sqSpecFormula 1 (21 / 2) = 241 := by
  unfold sqSpecFormula
  rw [Real.log_one, round_eq]
  rw [Int.floor_eq_iff]
  constructor
  · norm_num
  · norm_num

/-- C6: the claim states SQ is computed from the exact averages of a
player's samples.  For two samples with unspent resources 1 and 1 and
incomes 10 and 11, the code divides the totals by the sample count with
`int64` division before applying the formula — `calcSQ(2/2, 21/2) =
calcSQ(1, 10) = 240` — while the claim's formula at the exact averages
(avgUnspent 1, avgIncome 10.5) rounds to 241. -/
theorem c6_counterexample :
    accumStats [⟨1, 0, 10, 0, 0, 1⟩, ⟨1, 0, 11, 0, 0, 1⟩] =
      ⟨2, 2, 21, 0⟩ ∧
    finalizeStats (accumStats [⟨1, 0, 10, 0, 0, 1⟩, ⟨1, 0, 11, 0, 0, 1⟩]) =
      ⟨some 240, some 0⟩ ∧
    sqSpecFormula 1 (21 / 2) = 241 ∧
    (240 : ℤ) ≠ 241 := by
  have hacc : accumStats [⟨1, 0, 10, 0, 0, 1⟩, ⟨1, 0, 11, 0, 0, 1⟩] =
      ⟨2, 2, 21, 0⟩ := by decide
  refine ⟨hacc, ?_, sqSpecFormula_ce, by decide⟩
  rw [hacc]
  unfold finalizeStats
  rw [if_neg (by decide)]
  rw [show Int.tdiv 2 2 = 1 by decide, show Int.tdiv 21 2 = 10 by decide,
    show Int.tdiv (0 * 100) 2 = 0 by decide, calcSQ_one_ten]

/-- C6 (amended): for a player with at least one sample the finalize step
sets `SQ = calcSQ(totalUnspent tdiv n, totalIncome tdiv n)` — the averages
are the `int64`-truncated quotients of the accumulated totals by the
sample count `n`, not exact averages — and `supplyCappedPercent =
(cappedSamples * 100) tdiv n` (which is the floor for these non-negative
counts); for a player with zero samples both fields are left unset. -/
theorem c6_finalize (l : List StatsSample) :
    (l = [] → finalizeStats (accumStats l) = ⟨none, none⟩) ∧
    (l ≠ [] →
      finalizeStats (accumStats l) =
        ⟨some (calcSQ
          (Int.tdiv
            ((l.map (fun s => s.mineralsCurrent + s.vespeneCurrent)).sum)
            l.length)
          (Int.tdiv ((l.map (fun s => s.mineralsRate + s.vespeneRate)).sum)
            l.length)),
         some (Int.tdiv
           ((l.countP (fun s => decide (s.foodMade ≤ s.foodUsed)) : ℤ)
             * 100)
           l.length)⟩) := by
  rw [accumStats_spec]
  constructor
  · intro hl
    subst hl
    rfl
  · intro hl
    unfold finalizeStats
    rw [if_neg (by
      simp only [ne_eq, Nat.cast_eq_zero]
      exact fun h => hl (List.length_eq_zero.mp h))]

/-- C6 witness: the amended finalize theorem at the two concrete samples
of the counterexample. -/
theorem c6_witness :
    ([⟨1, 0, 10, 0, 0, 1⟩, ⟨1, 0, 11, 0, 0, 1⟩] : List StatsSample) ≠ []
      ∧
    finalizeStats
        (accumStats [⟨1, 0, 10, 0, 0, 1⟩, ⟨1, 0, 11, 0, 0, 1⟩]) =
      ⟨some (calcSQ 1 10), some 0⟩ :=
  ⟨by decide,
   (c6_finalize [⟨1, 0, 10, 0, 0, 1⟩, ⟨1, 0, 11, 0, 0, 1⟩]).2
     (by decide)⟩

/-!
## C4 and C7: session construction
-/





/-- `okImpliesMPQ` holds vacuously of classified errors. -/
theorem okImpliesMPQ_err (e : repm.RepError) :
    okImpliesMPQ (repm.RawOut.err e) := fun _ h => by cases h

/-- `okImpliesMPQ` passes through a possibly-panicking call. -/
theorem okImpliesMPQ_pstep {α : Type} (x : repm.PRes α)
    (k : α → repm.RawOut) (hk : ∀ a, okImpliesMPQ (k a)) :
    okImpliesMPQ (repm.pstep x k) := by
  cases x with
  | panic => intro r h; cases h
  | ok a => exact hk a

/-- `okImpliesMPQ` passes through the primary/backup read. -/
theorem okImpliesMPQ_readWithBackup
    (p b : repm.PRes (Option (List Nat))) (k : List Nat → repm.RawOut)
    (hk : ∀ d, okImpliesMPQ (k d)) :
    okImpliesMPQ (repm.readWithBackup p b k) := by
  unfold repm.readWithBackup
  apply okImpliesMPQ_pstep
  intro d?
  cases d? with
  | none =>
    dsimp only
    apply okImpliesMPQ_pstep
    intro b?
    cases b? with
    | none => exact okImpliesMPQ_err _
    | some bd =>
      dsimp only
      by_cases hbe : bd.isEmpty
      · rw [if_pos hbe]; exact okImpliesMPQ_err _
      · rw [if_neg hbe]; exact hk bd
  | some d =>
    dsimp only
    by_cases hde : d.isEmpty
    · rw [if_pos hde]
      apply okImpliesMPQ_pstep
      intro b?
      cases b? with
      | none => exact okImpliesMPQ_err _
      | some bd =>
        dsimp only
        by_cases hbe : bd.isEmpty
        · rw [if_pos hbe]; exact okImpliesMPQ_err _
        · rw [if_neg hbe]; exact hk bd
    · rw [if_neg hde]; exact hk d

/-- `okImpliesMPQ` passes through the metadata step. -/
theorem okImpliesMPQ_metadataCheck (mdData? : Option (List Nat))
    (unmarshal : List Nat → repm.PRes Bool) (k : repm.RawOut)
    (hk : okImpliesMPQ k) :
    okImpliesMPQ (repm.metadataCheck mdData? unmarshal k) := by
  unfold repm.metadataCheck
  cases mdData? with
  | none => exact hk
  | some mdData =>
    dsimp only
    apply okImpliesMPQ_pstep
    intro parsed
    cases parsed with
    | false => exact okImpliesMPQ_err _
    | true => exact hk

/-- `okImpliesMPQ` passes through an optional event-stream stage. -/
theorem okImpliesMPQ_evtStream (enabled : Bool)
    (file : repm.PRes (Option (List Nat)))
    (decode : List Nat → repm.PRes (List Event × Bool))
    (k : List Event → Bool → repm.RawOut)
    (hk : ∀ evts b, okImpliesMPQ (k evts b)) :
    okImpliesMPQ (repm.evtStream enabled file decode k) := by
  unfold repm.evtStream
  cases enabled with
  | false => exact hk [] false
  | true =>
    rw [if_pos rfl]
    apply okImpliesMPQ_pstep
    intro d?
    cases d? with
    | none => exact okImpliesMPQ_err _
    | some data =>
      dsimp only
      apply okImpliesMPQ_pstep
      intro res
      exact hk res.1 res.2

/-- `okImpliesMPQ` passes through the tracker stage. -/
theorem okImpliesMPQ_trackerStream (enabled : Bool)
    (file : repm.PRes (Option (List Nat)))
    (decode : List Nat → repm.PRes (List Event × Bool))
    (init : repm.PRes Unit) (k : List Event → Bool → repm.RawOut)
    (hk : ∀ evts b, okImpliesMPQ (k evts b)) :
    okImpliesMPQ (repm.trackerStream enabled file decode init k) := by
  unfold repm.trackerStream
  cases enabled with
  | false => exact hk [] false
  | true =>
    rw [if_pos rfl]
    apply okImpliesMPQ_pstep
    intro d?
    cases d? with
    | none => exact okImpliesMPQ_err _
    | some data =>
      dsimp only
      apply okImpliesMPQ_pstep
      intro res
      apply okImpliesMPQ_pstep
      intro _
      exact hk res.1 res.2

/-- A successful construction transfers the open archive into the returned
session: the raw body only ever returns sessions holding the handle. -/
theorem newRepRaw_ok_hasMPQ (env : repm.Env) (g m t : Bool)
    (r : repm.Rep)
    (h : repm.newRepRaw env g m t = repm.RawOut.ok r) :
    r.hasMPQ = true := by
  revert r h
  show okImpliesMPQ (repm.newRepRaw env g m t)
  unfold repm.newRepRaw
  apply okImpliesMPQ_pstep
  intro h?
  cases h? with
  | none => exact okImpliesMPQ_err _
  | some bb =>
    cases hp : (match env.getProtocol bb with
      | some p => some p
      | none => env.getProtocol env.maxBaseBuild) with
    | none => simp only [hp]; exact okImpliesMPQ_err _
    | some p =>
      simp only [hp]
      apply okImpliesMPQ_readWithBackup
      intro dData
      apply okImpliesMPQ_pstep
      intro _
      apply okImpliesMPQ_readWithBackup
      intro iData
      apply okImpliesMPQ_pstep
      intro _
      apply okImpliesMPQ_pstep
      intro a?
      cases a? with
      | none => exact okImpliesMPQ_err _
      | some aData =>
        apply okImpliesMPQ_pstep
        intro _
        apply okImpliesMPQ_pstep
        intro md?
        cases md? with
        | none => exact okImpliesMPQ_err _
        | some mdData? =>
          dsimp only
          apply okImpliesMPQ_metadataCheck
          apply okImpliesMPQ_evtStream
          intro gameEvts gameErr
          apply okImpliesMPQ_evtStream
          intro messageEvts messageErr
          apply okImpliesMPQ_trackerStream
          intro trackerEvts trackerErr
          intro r hr
          cases hr
          rfl

/-- C4: session construction never propagates a runtime fault — the
classified outcome is never `panicked`; whenever the raw construction body
faults, the deferred recover converts the fault into the classified
`ErrDecoding`; and a byte sequence that the archive reader rejects yields
`ErrInvalidRepFile` with no crash. -/
theorem c4_fault_containment (env : repm.Env) (g m t : Bool) :
    (repm.newRep env g m t).1 ≠ repm.RawOut.panicked ∧
    (repm.newRepRaw env g m t = repm.RawOut.panicked →
      (repm.newRep env g m t).1 =
        repm.RawOut.err repm.RepError.ErrDecoding) ∧
    repm.NewEvtsModel none g m t =
      (repm.RawOut.err repm.RepError.ErrInvalidRepFile, 0) := by
  refine ⟨?_, ?_, rfl⟩
  · unfold repm.newRep
    cases repm.newRepRaw env g m t <;> simp
  · intro h
    unfold repm.newRep
    rw [h]

/-- C4 witness: a header decode that faults is converted to
`ErrDecoding`. -/
theorem c4_witness :
    repm.newRepRaw envPanic true true true = repm.RawOut.panicked ∧
    (repm.newRep envPanic true true true).1 =
      repm.RawOut.err repm.RepError.ErrDecoding :=
  ⟨rfl, (c4_fault_containment envPanic true true true).2.1 rfl⟩

/-- C7: the claim also asserts that a second `Close` of an already-released
session is a no-op.  It is not: `Close` never clears the handle field, so
each call on a constructed session forwards to the archive's release again
— after a successful construction (which itself performs no release) two
`Close` calls release the archive twice, not once. -/
theorem c7_counterexample :
    (repm.newRep envOK true true true).1 = repm.RawOut.ok repEx ∧
    (repm.newRep envOK true true true).2 = 0 ∧
    repm.Rep.Close repEx 0 = 1 ∧
    repm.Rep.Close repEx (repm.Rep.Close repEx 0) = 2 :=
  ⟨rfl, rfl, rfl, rfl⟩

/-- C7 (amended): during construction the archive is released exactly once
on every failure path and zero times on the success path, where ownership
transfers to the returned session (which holds the handle); `Close` is a
no-op only when the session holds no archive handle — a repeated `Close`
on a constructed session forwards the release to the archive again rather
than being suppressed. -/
theorem c7_release_discipline (env : repm.Env) (g m t : Bool) :
    (∀ e, (repm.newRep env g m t).1 = repm.RawOut.err e →
      (repm.newRep env g m t).2 = 1) ∧
    (∀ r, (repm.newRep env g m t).1 = repm.RawOut.ok r →
      (repm.newRep env g m t).2 = 0 ∧ r.hasMPQ = true) ∧
    (∀ (r : repm.Rep) (n : Nat), r.hasMPQ = false →
      repm.Rep.Close r n = n) ∧
    (∀ (r : repm.Rep) (n : Nat), r.hasMPQ = true →
      repm.Rep.Close r n = n + 1) := by
  refine ⟨?_, ?_, ?_, ?_⟩
  · intro e he
    unfold repm.newRep at he ⊢
    cases hraw : repm.newRepRaw env g m t with
    | ok r2 => rw [hraw] at he; simp at he
    | err e2 => rfl
    | panicked => rfl
  · intro r hr
    unfold repm.newRep at hr ⊢
    cases hraw : repm.newRepRaw env g m t with
    | ok r2 =>
      rw [hraw] at hr
      refine ⟨rfl, ?_⟩
      have hr2 : r2 = r := by simpa using hr
      rw [← hr2]
      exact newRepRaw_ok_hasMPQ env g m t r2 hraw
    | err e2 => rw [hraw] at hr; simp at hr
    | panicked => rw [hraw] at hr; simp at hr
  · intro r n h
    unfold repm.Rep.Close
    rw [h]
    rfl
  · intro r n h
    unfold repm.Rep.Close
    rw [h]
    rfl

/-- C7 witness: the failure-path release count at a faulting environment
and the success-path count at a fully successful one. -/
theorem c7_witness :
    ((repm.newRep envPanic true true true).1 =
      repm.RawOut.err repm.RepError.ErrDecoding ∧
     (repm.newRep envPanic true true true).2 = 1) ∧
    ((repm.newRep envOK true true true).1 = repm.RawOut.ok repEx ∧
     (repm.newRep envOK true true true).2 = 0) :=
  ⟨⟨rfl, (c7_release_discipline envPanic true true true).1
      repm.RepError.ErrDecoding rfl⟩,
   ⟨rfl, ((c7_release_discipline envOK true true true).2.1 repEx rfl).1⟩⟩

/-!
## C2
-/


/-- C2: the claim's own synthetic stream
`[BankFile, BankKey, BankValue(type=7), value-bearing event]` does not
render a value element at all: reconstruction stores all four events in
order, but `WriteTo` on that document faults (nil `eCurrSection`
dereference at the BankKey event, which has no preceding BankSection), so
no value element carrying the later payload is ever produced. -/
theorem c2_counterexample :
    writeTo infoEx "p"
      ⟨"b", 0, [evFile 0 "b", evKey 0 "k", evValue 0 7 "deferred",
                evValue 0 3 "payload"]⟩ "now" = none ∧
    NewBanksFromReplay 1
      [evFile 0 "b", evKey 0 "k", evValue 0 7 "deferred",
       evValue 0 3 "payload"] =
      some [[("b", ⟨"b", 0,
        [evFile 0 "b", evKey 0 "k", evValue 0 7 "deferred",
         evValue 0 3 "payload"]⟩)]] :=
  ⟨by decide, by decide⟩

/-- C2 (amended): with a BankSection opening the document, the type-7
BankValue event and the immediately following value-bearing event are both
stored in order by reconstruction, the type-7 event itself produces no
`Value` element at rendering time, and the single rendered `Value` element
under the current key carries the later event's payload. -/
theorem c2_deferred_value (t : Int) (d : String) (h0 : 0 ≤ t)
    (h7 : t < 7) :
    NewBanksFromReplay 1 (c2Events t d) =
      some [[("b", ⟨"b", 0, c2Events t d⟩)]] ∧
    writeTo infoEx "p" ⟨"b", 0, c2Events t d⟩ "now" =
      some ⟨["Bank recovered from a replay", "now", "Title: MapTitle",
             "Version: 3.16.1", "Loops: 5000", "Length: 20m", "Player: p"],
            [("version", "1")],
            [⟨none, "Section", [("name", "s")]⟩,
             ⟨some 0, "Key", [("name", "k")]⟩,
             ⟨some 1, "Value", [(valueKindNames.getD t.toNat "", d)]⟩]⟩ := by
  constructor
  · rfl
  · have h4 : writeEvents ⟨[], none, none⟩
        [evFile 0 "b", evSection 0 "s", evKey 0 "k",
         evValue 0 7 "deferred"] =
        some ⟨[⟨none, "Section", [("name", "s")]⟩,
               ⟨some 0, "Key", [("name", "k")]⟩], some 0, some 1⟩ := rfl
    have h5 : writeStep
        ⟨[⟨none, "Section", [("name", "s")]⟩,
          ⟨some 0, "Key", [("name", "k")]⟩], some 0, some 1⟩
        (evValue 0 t d) =
        some ⟨[⟨none, "Section", [("name", "s")]⟩,
               ⟨some 0, "Key", [("name", "k")]⟩,
               ⟨some 1, "Value", [(valueKindNames.getD t.toNat "", d)]⟩],
              some 0, some 1⟩ := by
      show writeValue ⟨[⟨none, "Section", [("name", "s")]⟩,
        ⟨some 0, "Key", [("name", "k")]⟩], some 0, some 1⟩ t d = _
      rw [writeValue, if_neg (show ¬ t = 7 by omega)]
      exact if_pos ⟨h0, h7⟩
    have hEvents : writeEvents ⟨[], none, none⟩ (c2Events t d) =
        some ⟨[⟨none, "Section", [("name", "s")]⟩,
               ⟨some 0, "Key", [("name", "k")]⟩,
               ⟨some 1, "Value", [(valueKindNames.getD t.toNat "", d)]⟩],
              some 0, some 1⟩ := by
      have hsplit : c2Events t d =
          [evFile 0 "b", evSection 0 "s", evKey 0 "k",
           evValue 0 7 "deferred"] ++ [evValue 0 t d] := rfl
      rw [hsplit, writeEvents_append, h4]
      show writeEvents _ [evValue 0 t d] = _
      rw [writeEvents, h5]
      rfl
    unfold writeTo
    rw [hEvents]
    rfl

/-- C2 witness: the amended deferred-value theorem applied at type code 3
with payload `"payload"`. -/
theorem c2_witness :
    ((0 : Int) ≤ 3 ∧ (3 : Int) < 7) ∧
    (NewBanksFromReplay 1 (c2Events 3 "payload") =
      some [[("b", ⟨"b", 0, c2Events 3 "payload"⟩)]] ∧
    writeTo infoEx "p" ⟨"b", 0, c2Events 3 "payload"⟩ "now" =
      some ⟨["Bank recovered from a replay", "now", "Title: MapTitle",
             "Version: 3.16.1", "Loops: 5000", "Length: 20m", "Player: p"],
            [("version", "1")],
            [⟨none, "Section", [("name", "s")]⟩,
             ⟨some 0, "Key", [("name", "k")]⟩,
             ⟨some 1, "Value",
               [(valueKindNames.getD (3 : Int).toNat "", "payload")]⟩]⟩) :=
  ⟨⟨by decide, by decide⟩,
   c2_deferred_value 3 "payload" (by decide) (by decide)⟩

/-!
## C10
-/


/-- The serializer loop written with an explicit bind over the first
step. -/
theorem writeEvents_cons (st : WState) (e : Event) (rest : List Event) :
    writeEvents st (e :: rest) =
      (writeStep st e).bind (fun st' => writeEvents st' rest) := by
  rw [writeEvents]
  cases writeStep st e with
  | none => rfl
  | some st' => rfl

/-- Rendering a value occurrence with a current key present and a type
code in [0, 7] cannot fault, and preserves the current section and key
pointers. -/
theorem writeValue_ok (st : WState) (t : Int) (d : String)
    (hk : st.currKey.isSome) (h0 : 0 ≤ t) (h7 : t ≤ 7) :
    ∃ st2, writeValue st t d = some st2 ∧
      st2.currSection = st.currSection ∧ st2.currKey = st.currKey := by
  by_cases h7eq : t = 7
  · exact ⟨st, by rw [writeValue, if_pos h7eq], rfl, rfl⟩
  · obtain ⟨kid, hkid⟩ := Option.isSome_iff_exists.mp hk
    refine ⟨{ st with nodes := st.nodes ++
      [⟨some kid, "Value", [(valueKindNames.getD t.toNat "", d)]⟩] },
      ?_, rfl, rfl⟩
    rw [writeValue, if_neg h7eq, hkid]
    exact if_pos ⟨h0, by omega⟩

/-- Sufficiency of the claimed precondition, generalized over the loop
state: if a BankSection (BankKey) seen earlier guarantees a current section
(key) pointer, the rest of the loop cannot fault. -/
theorem writeEvents_isSome_of_pre (evts : List Event) :
    ∀ (hasSec hasKey : Bool) (st : WState),
    writePreB hasSec hasKey evts = true →
    (hasSec = true → st.currSection.isSome) →
    (hasKey = true → st.currKey.isSome) →
    (writeEvents st evts).isSome := by
  induction evts with
  | nil => intro _ _ _ _ _ _; rw [writeEvents]; rfl
  | cons e rest ih =>
    intro hasSec hasKey st hpre hS hK
    rw [writeEvents_cons]
    by_cases hsec : e.evtTypeName = EvtTypeBankSection
    · rw [writePreB, if_pos hsec] at hpre
      rw [writeStep, if_pos hsec, Option.some_bind]
      exact ih true hasKey _ hpre (fun _ => rfl) hK
    · by_cases hkey : e.evtTypeName = EvtTypeBankKey
      · rw [writePreB, if_neg hsec, if_pos hkey] at hpre
        simp only [Bool.and_eq_true] at hpre
        obtain ⟨⟨hS1, hinline⟩, hrest⟩ := hpre
        obtain ⟨sid, hsid⟩ := Option.isSome_iff_exists.mp (hS hS1)
        cases ht : e.type with
        | none =>
          have hstep : writeStep st e = some
              ⟨st.nodes ++ [⟨some sid, "Key", [("name", e.name)]⟩],
               some sid, some st.nodes.length⟩ := by
            rw [writeStep, if_neg hsec, if_pos hkey, hsid, ht]
          rw [hstep, Option.some_bind]
          exact ih hasSec true _ hrest (fun _ => rfl) (fun _ => rfl)
        | some t =>
          rw [ht] at hinline
          simp only [Bool.and_eq_true, decide_eq_true_eq] at hinline
          have hstep : writeStep st e = writeValue
              ⟨st.nodes ++ [⟨some sid, "Key", [("name", e.name)]⟩],
               some sid, some st.nodes.length⟩ t e.data := by
            rw [writeStep, if_neg hsec, if_pos hkey, hsid, ht]
          obtain ⟨st2, hval, hcs, hck⟩ := writeValue_ok
            ⟨st.nodes ++ [⟨some sid, "Key", [("name", e.name)]⟩],
             some sid, some st.nodes.length⟩ t e.data rfl hinline.1
            hinline.2
          rw [hstep, hval, Option.some_bind]
          exact ih hasSec true _ hrest (fun _ => by rw [hcs]; rfl)
            (fun _ => by rw [hck]; rfl)
      · by_cases hval : e.evtTypeName = EvtTypeBankValue
        · rw [writePreB, if_neg hsec, if_neg hkey, if_pos hval] at hpre
          simp only [Bool.and_eq_true, decide_eq_true_eq] at hpre
          obtain ⟨⟨⟨hK1, h0⟩, h7le⟩, hrest⟩ := hpre
          have hstep : writeStep st e =
              writeValue st (e.type.getD 0) e.data := by
            rw [writeStep, if_neg hsec, if_neg hkey, if_pos hval]
          obtain ⟨st2, hv, hcs, hck⟩ :=
            writeValue_ok st (e.type.getD 0) e.data (hK hK1) h0 h7le
          rw [hstep, hv, Option.some_bind]
          exact ih hasSec hasKey _ hrest (fun h => by rw [hcs]; exact hS h)
            (fun h => by rw [hck]; exact hK h)
        · rw [writePreB, if_neg hsec, if_neg hkey, if_neg hval] at hpre
          by_cases hsig : e.evtTypeName = EvtTypeBankSignature
          · rw [writeStep, if_neg hsec, if_neg hkey, if_neg hval,
              if_pos hsig, Option.some_bind]
            exact ih hasSec hasKey _ hpre (fun _ => rfl) hK
          · rw [writeStep, if_neg hsec, if_neg hkey, if_neg hval,
              if_neg hsig, Option.some_bind]
            exact ih hasSec hasKey _ hpre hS hK

/-- C10: the claimed preconditions are not necessary for totality: the
document `[BankSection, BankValue(type=7)]` violates "every standalone
BankValue event is preceded by some BankKey event", yet `WriteTo` renders
it without fault (the type-7 deferral skips the event before the nil
`eCurrKey` would be dereferenced) — so violating the stated preconditions
does not always make `WriteTo` fault. -/
theorem c10_counterexample :
    writePreB false false [evSection 0 "s", evValue 0 7 "z"] = false ∧
    (writeEvents ⟨[], none, none⟩
      [evSection 0 "s", evValue 0 7 "z"]).isSome = true :=
  ⟨by decide, by decide⟩

/-- C10 (amended): the claimed preconditions are sufficient — a document
in which every BankKey is preceded by some BankSection, every standalone
BankValue is preceded by some BankKey and every value-bearing occurrence
has a type code in [0, 7] renders without fault; and genuine violations do
fault: a BankKey with no preceding BankSection or BankSignature, and a
rendered value-bearing event with type code 8, both make the rendering
loop fault (nil dereference resp. out-of-range index) rather than return
an error value. -/
theorem c10_totality :
    (∀ evts : List Event, writePreB false false evts = true →
      (writeEvents ⟨[], none, none⟩ evts).isSome = true) ∧
    writeEvents ⟨[], none, none⟩ [evKey 0 "k"] = none ∧
    writeEvents ⟨[], none, none⟩
      [evSection 0 "s", evKey 0 "k", evValue 0 8 "z"] = none := by
  refine ⟨fun evts hpre => ?_, by decide, by decide⟩
  have := writeEvents_isSome_of_pre evts false false ⟨[], none, none⟩ hpre
    (fun h => by cases h) (fun h => by cases h)
  simpa using this

/-- C10 witness: the sufficiency direction of `c10_totality` applied to a
concrete well-formed document. -/
theorem c10_witness :
    writePreB false false
      [evSection 0 "s", evKey 0 "k", evValue 0 3 "d"] = true ∧
    (writeEvents ⟨[], none, none⟩
      [evSection 0 "s", evKey 0 "k", evValue 0 3 "d"]).isSome = true :=
  ⟨by decide,
   c10_totality.1 [evSection 0 "s", evKey 0 "k", evValue 0 3 "d"]
     (by decide)⟩

/-!
## C3
-/

/-- C3: the claim says two `WriteTo` calls on the same reconstructed bank
produce byte-identical output.  They do not: `WriteTo` renders
`fmt.Sprint(time.Now())` into a provenance comment, so two calls made at
different instants (modelled by the two timestamp strings) differ in the
serialized bytes. -/
theorem c3_counterexample :
    writeToBytes infoEx "1-S2-1-1" bankEx "ts-A" ≠
      writeToBytes infoEx "1-S2-1-1" bankEx "ts-B" := by decide

/-- C3 (amended): the serialized bytes are a deterministic function of the
stored event sequence, the session's header/details fields, the owner
identity and the rendering timestamp; with the timestamp fixed, two
serializations of banks with the same stored events are byte-identical
(the other `Bank` fields do not influence the output). -/
theorem c3_deterministic_given_timestamp (info : RepInfo)
    (toon now : String) (b1 b2 : Bank) (h : b1.events = b2.events) :
    writeTo info toon b1 now = writeTo info toon b2 now ∧
    writeToBytes info toon b1 now = writeToBytes info toon b2 now := by
  have hdoc : writeTo info toon b1 now = writeTo info toon b2 now := by
    unfold writeTo
    rw [h]
  exact ⟨hdoc, by unfold writeToBytes; rw [hdoc]⟩

/-- C3 witness: two banks differing only in name and player but sharing
the stored events serialize identically at a fixed timestamp. -/
theorem c3_witness :
    (bankEx.events = (Bank.mk "other" 1 bankEx.events).events) ∧
    writeToBytes infoEx "1-S2-1-1" bankEx "ts-A" =
      writeToBytes infoEx "1-S2-1-1" (Bank.mk "other" 1 bankEx.events)
        "ts-A" :=
  ⟨rfl,
   (c3_deterministic_given_timestamp infoEx "1-S2-1-1" "ts-A" bankEx
     (Bank.mk "other" 1 bankEx.events) rfl).2⟩

/-!
## C8
-/

/-- C8: the claim says the value-holding child element is tagged with the
value-kind name selected by the type code.  Rendering a concrete document
with a type-2 value shows the child element is tagged `Value`; the
value-kind name (`int` for code 2) is the name of its single attribute,
not its tag. -/
theorem c8_counterexample :
    ((writeTo infoEx "p" bankEx "now").map
      (fun doc => (doc.nodes.getD 2 ⟨none, "", []⟩).tag)) = some "Value" ∧
    valueKindNames.getD 2 "" = "int" ∧
    ((writeTo infoEx "p" bankEx "now").map
      (fun doc => (doc.nodes.getD 2 ⟨none, "", []⟩).tag)) ≠ some "int" := by
  refine ⟨by decide, by decide, by decide⟩

/-- C8 (amended): rendering a value-bearing event whose type code lies in
0–6 while a current key exists creates, under that key, a child element
tagged `Value` carrying exactly one attribute, whose name is the value-kind
name selected by the type code from
`{fixed, flag, int, string, point, unit, text}` and whose value is the
decoded payload. -/
theorem c8_value_element_shape (st : WState) (kid : Nat) (t : Int)
    (d : String) (hk : st.currKey = some kid) (h0 : 0 ≤ t) (h7 : t < 7) :
    writeValue st t d =
      some { st with nodes := st.nodes ++
        [⟨some kid, "Value", [(valueKindNames.getD t.toNat "", d)]⟩] } := by
  rw [writeValue, if_neg (by omega), hk]
  exact if_pos ⟨h0, h7⟩

/-- C8 witness: the amended shape theorem applied at type code 2 under a
concrete current key. -/
theorem c8_witness :
    ((WState.mk [] none (some 0)).currKey = some 0 ∧ (0 : Int) ≤ 2 ∧
      (2 : Int) < 7) ∧
    writeValue ⟨[], none, some 0⟩ 2 "5" =
      some ⟨[⟨some 0, "Value", [("int", "5")]⟩], none, some 0⟩ :=
  ⟨⟨rfl, by decide, by decide⟩,
   c8_value_element_shape ⟨[], none, some 0⟩ 0 2 "5" rfl (by decide)
     (by decide)⟩
